import Mathlib

/-!
Verification of the classification engine of `arxiv_to_notion.py`.

The embedding models the function `analyze_paper_with_gemini` and its
surrounding module state:
  * the response parser (separator split, regex section extraction,
    truncation, judgment test), lines 191-220 of the source;
  * the model-fallback loop over `MODEL_LIST` driven by the global
    `current_model_index`, lines 177-235;
  * PDF acquisition preceding the loop, lines 133-141.

Text is modelled as `List Char`.  Python's `str.strip` becomes `pyStrip`,
`"sub" in s` becomes `containsSub`, `s.lower()` becomes `lowerL`, and
`re.search` on the patterns the code builds is modelled by `sectionSpan`
(first occurrence of the bracketed tag, then - when the pattern carries a
lookahead for the next tag - the first occurrence of that next tag after
it; a pattern with no lookahead has a trailing lazy group, which always
captures the empty string).
-/

namespace ArxivToNotion

/-- Characters of a string literal, for writing concrete inputs. -/
def chars (s : String) : List Char := s.data

/-- Whitespace characters stripped by Python's `str.strip()` (ASCII range). -/
def isPySpace (c : Char) : Bool :=
  c = ' ' || c = '\t' || c = '\n' || c = '\r' || c = '\x0b' || c = '\x0c'

/-- Model of Python `str.strip()`: drop whitespace from both ends. -/
def pyStrip (l : List Char) : List Char :=
  ((l.dropWhile isPySpace).reverse.dropWhile isPySpace).reverse

/-- Model of Python `str.lower()` (the inputs involved are ASCII). -/
def lowerL (l : List Char) : List Char := l.map Char.toLower

/-- Index of the first occurrence of `needle` in `hay`, if any.  This is the
position Python's `str.find` / leftmost regex match would report. -/
def firstOcc (needle : List Char) : List Char → Option Nat
  | [] => if needle = [] then some 0 else none
  | c :: rest =>
    if needle.isPrefixOf (c :: rest) then some 0
    else (firstOcc needle rest).map (· + 1)

/-- Model of Python's substring test `needle in hay`. -/
def containsSub (needle hay : List Char) : Bool := (firstOcc needle hay).isSome

/-- The separator token `|||` of the prompt/response protocol. -/
def sepList : List Char := chars "|||"

/-- The substring the judgment test looks for (line 216). -/
def yesList : List Char := chars "yes"

/-- The five section keys, in the fixed order of the `tags` list (line 195). -/
inductive Tag
  | motivation
  | differences
  | contributions
  | method
  | results
deriving DecidableEq

/-- Spelling of each tag as it appears in the `tags` list. -/
def tagName : Tag → List Char
  | .motivation => chars "MOTIVATION"
  | .differences => chars "DIFFERENCES"
  | .contributions => chars "CONTRIBUTIONS"
  | .method => chars "METHOD"
  | .results => chars "RESULTS"

/-- Successor in the fixed tag order: `tags[i+1] if i + 1 < len(tags) else None`. -/
def nextTag : Tag → Option Tag
  | .motivation => some .differences
  | .differences => some .contributions
  | .contributions => some .method
  | .method => some .results
  | .results => none

/-- Lower-cased bracketed tag `[TAG]`, the literal part of the regex pattern
(matching is case-insensitive, so both sides are compared lower-cased). -/
def tagPat (tg : Tag) : List Char := lowerL ('[' :: tagName tg ++ [']'])

/-- Model of `re.search(pattern, s, re.DOTALL | re.IGNORECASE)` for the
pattern built at lines 201-203: group 1 of the leftmost match, `none` when
there is no match.  With a lookahead `(?=[NEXT])` the lazy group captures
from the end of the first `[TAG]` up to the first `[NEXT]` after it; with no
lookahead the trailing lazy group `(.*?)` captures the empty string. -/
def sectionSpan (s : List Char) (tg : Tag) : Option (List Char) :=
  let ls := lowerL s
  match firstOcc (tagPat tg) ls with
  | none => none
  | some i =>
    let start := i + (tagPat tg).length
    match nextTag tg with
    | none => some []
    | some nt =>
      match firstOcc (tagPat nt) (ls.drop start) with
      | none => none
      | some j => some ((s.drop start).take j)

/-- Truncation marker appended at line 210. -/
def truncMarker : List Char := chars "..."

/-- Truncation rule of line 210:
`content[:1990] + '...' if len(content) > 2000 else content`. -/
def truncVal (c : List Char) : List Char :=
  if 2000 < c.length then c.take 1990 ++ truncMarker else c

/-- Value stored in `parsed_summary` for one tag (lines 197-212): the
stripped, truncated regex group when the pattern matched, `"N/A"` otherwise. -/
def parsedSummary (s : List Char) : Tag → List Char := fun tg =>
  match sectionSpan s tg with
  | none => chars "N/A"
  | some sp => truncVal (pyStrip sp)

/-- Relevance verdict (line 216). -/
inductive Rel
  | related
  | unrelated
deriving DecidableEq

/-- Model of `response.text.strip().split('|||', 1)` followed by stripping
both parts (line 192): the parts before and after the first separator of the
stripped text, each stripped; `none` when the separator does not occur. -/
def sepSplit (t : List Char) : Option (List Char × List Char) :=
  let st := pyStrip t
  match firstOcc sepList st with
  | some i => some (pyStrip (st.take i), pyStrip (st.drop (i + sepList.length)))
  | none => none

/-- Outcome of one classification call.  The Python function reports every
failure as `return None, None`; the constructors keep the distinct return
paths of the source apart (download failure at line 141, malformed response
at line 220, unexpected service error at line 232, exhausted roster at line
235).  `pending` stands for a call whose supplied service behaviour ran out
before the loop finished (the real call would issue another request). -/
inductive EngineResult
  | success (rel : Rel) (summary : Tag → List Char)
  | malformed
  | serviceError
  | exhausted
  | acqFailure
  | pending

/-- Relevance of a successful result. -/
def relOf : EngineResult → Option Rel
  | .success r _ => some r
  | _ => none

/-- Stored summary value of a successful result at one tag. -/
def summaryAt (r : EngineResult) (tg : Tag) : Option (List Char) :=
  match r with
  | .success _ s => some (s tg)
  | _ => none

/-- Whether the result is a success. -/
def isSuccess (r : EngineResult) : Bool := (relOf r).isSome

/-- Whether the result is the malformed-response rejection. -/
def isMalformed : EngineResult → Bool
  | .malformed => true
  | _ => false

/-- Whether the result is the exhausted-roster failure. -/
def isExhausted : EngineResult → Bool
  | .exhausted => true
  | _ => false

/-- Whether the result is the acquisition failure. -/
def isAcqFailure : EngineResult → Bool
  | .acqFailure => true
  | _ => false

/-- Parse of one response text (lines 191-220).  The code accepts the
response when `response.text` is non-empty and contains `|||`; it then
splits on the first separator, extracts the five sections, and maps the
judgment to `Related` iff it contains `yes` (lower-cased).  The check
`all(tag in parsed_summary for tag in tags)` at line 215 always holds, since
the loop stores a value (possibly `"N/A"`) for every tag, so an accepted
response always returns a success.  The `serviceError` arm mirrors the
`ValueError` a one-element split would raise into the blanket `except`; it
is unreachable because stripping cannot remove an occurrence of `|||`. -/
def parseResponse (t : List Char) : EngineResult :=
  if t = [] then .malformed
  else if (firstOcc sepList t).isSome then
    match sepSplit t with
    | some (sp, ap) =>
      .success (if containsSub yesList (lowerL ap) then .related else .unrelated)
        (parsedSummary sp)
    | none => .serviceError
  else .malformed

/-- The fixed model roster (line 35). -/
def MODEL_LIST : List String :=
  ["gemini-2.5-pro", "gemini-2.5-flash", "gemini-2.0-flash",
   "gemini-2.5-flash-lite-preview-06-17"]

/-- Initial value of the process-wide cursor `current_model_index` (line 37). -/
def current_model_index : Nat := 0

/-- Outcome of the PDF download (lines 133-141).  Bytes are modelled by a
`Nat` blob identifier; the two caught exception kinds
(`httpx.RequestError`, `httpx.HTTPStatusError`) are kept apart. -/
inductive AcqResult
  | ok (data : Nat)
  | netError
  | httpStatusError
deriving DecidableEq

/-- One observed behaviour of the reasoning service for one request: either
a reply whose `response.text` is the given text (`none` models a `None`
text), or a raised exception with the given message text. -/
inductive SvcEvent
  | reply (t : Option (List Char))
  | error (msg : List Char)

/-- Classification of a caught exception by the substring tests of lines
223-226, in the order the code applies them: `overload` first, then
`resource_exhausted` / `quota`, otherwise `other`. -/
inductive ErrKind
  | overload
  | quota
  | other
deriving DecidableEq

/-- Kind of an exception with message `msg`, from `str(e).lower()`. -/
def errKind (msg : List Char) : ErrKind :=
  if containsSub (chars "overload") (lowerL msg) then .overload
  else if containsSub (chars "resource_exhausted") (lowerL msg)
      || containsSub (chars "quota") (lowerL msg) then .quota
  else .other

/-- Whether a service event is a quota/resource-exhaustion signal (the only
events on which line 228 advances the cursor). -/
def isQuotaEvent : SvcEvent → Bool
  | .error msg => errKind msg = ErrKind.quota
  | .reply _ => false

/-- Number of quota signals in a list of service events. -/
def countQuota (l : List SvcEvent) : Nat := (l.filter isQuotaEvent).length

/-- Observable outcome of the `while` loop of lines 177-235: the result, the
final value of `current_model_index`, and the roster indices used by the
requests issued, in order (one entry per `generate_content` call). -/
structure LoopOut where
  result : EngineResult
  finalIdx : Nat
  attempts : List Nat

/-- The fallback loop (lines 177-235).  Each iteration re-checks
`current_model_index < len(MODEL_LIST)`, issues one request (consuming one
service event), and then: a reply is parsed and returned (a `None` text
makes the preview at line 219 raise, which the blanket `except` turns into
the unexpected-error return); an overload exception sleeps and retries with
the same index; a quota exception advances the index and retries; any other
exception returns at once.  Leaving the loop returns the exhausted-roster
failure.  When the supplied behaviour list runs out while the loop would
continue, the outcome is `pending`. -/
def runLoop (roster : List String) : List SvcEvent → Nat → LoopOut
  | [], idx =>
    if idx < roster.length then ⟨.pending, idx, []⟩ else ⟨.exhausted, idx, []⟩
  | e :: rest, idx =>
    if idx < roster.length then
      match e with
      | .reply none => ⟨.serviceError, idx, [idx]⟩
      | .reply (some t) => ⟨parseResponse t, idx, [idx]⟩
      | .error msg =>
        match errKind msg with
        | .overload =>
          let o := runLoop roster rest idx
          ⟨o.result, o.finalIdx, idx :: o.attempts⟩
        | .quota =>
          let o := runLoop roster rest (idx + 1)
          ⟨o.result, o.finalIdx, idx :: o.attempts⟩
        | .other => ⟨.serviceError, idx, [idx]⟩
    else ⟨.exhausted, idx, []⟩

/-- Observable outcome of one call of `analyze_paper_with_gemini`: the
result, the final cursor, the issued requests as (roster index, bytes
handed to the service) pairs, and how many download attempts were made. -/
structure CallOut where
  result : EngineResult
  finalIdx : Nat
  requests : List (Nat × Nat)
  acqAttempts : Nat

/-- One call of `analyze_paper_with_gemini` (lines 126-235): the PDF is
downloaded once, before the loop; a download failure returns at line 141
without any service request; otherwise the fallback loop runs, and every
request it issues carries the bytes downloaded at line 137. -/
def analyze_paper_with_gemini (roster : List String) (idx : Nat)
    (acq : AcqResult) (events : List SvcEvent) : CallOut :=
  match acq with
  | .netError => ⟨.acqFailure, idx, [], 1⟩
  | .httpStatusError => ⟨.acqFailure, idx, [], 1⟩
  | .ok d =>
    let o := runLoop roster events idx
    ⟨o.result, o.finalIdx, o.attempts.map (fun i => (i, d)), 1⟩

/-- A whole run: the classification calls of `main` (line 302) in sequence,
threading the process-wide cursor from one call to the next.  Each document
contributes its download outcome and its service behaviour. -/
def runAll (roster : List String) :
    List (AcqResult × List SvcEvent) → Nat → List CallOut × Nat
  | [], idx => ([], idx)
  | (acq, evs) :: docs, idx =>
    let o := analyze_paper_with_gemini roster idx acq evs
    let r := runAll roster docs o.finalIdx
    (o :: r.1, r.2)

/-- Roster indices of the requests of one call, in order. -/
def callAttempts (o : CallOut) : List Nat := o.requests.map Prod.fst

/-- Roster indices of every request of a run, in order of issue. -/
def attemptSeq (outs : List CallOut) : List Nat :=
  (outs.map callAttempts).flatten

/-! Helper lemmas about substring occurrence and stripping. -/

/-- Occurrence of `n` as a contiguous substring of `h`. -/
def Occurs (n h : List Char) : Prop := ∃ s t, h = s ++ n ++ t

theorem prefixOf_iff (a : List Char) :
    ∀ b : List Char, a.isPrefixOf b = true ↔ ∃ u, b = a ++ u := by
  induction a with
  | nil => intro b; simp [List.isPrefixOf]
  | cons c a ih =>
    intro b
    cases b with
    | nil => simp [List.isPrefixOf]
    | cons d b =>
      simp only [List.isPrefixOf, Bool.and_eq_true, beq_iff_eq, ih,
        List.cons_append, List.cons.injEq]
      constructor
      · rintro ⟨rfl, u, rfl⟩; exact ⟨u, rfl, rfl⟩
      · rintro ⟨u, rfl, rfl⟩; exact ⟨rfl, u, rfl⟩

theorem firstOcc_isSome_iff (n : List Char) :
    ∀ h : List Char, (firstOcc n h).isSome = true ↔ Occurs n h := by
  intro h
  induction h with
  | nil =>
    by_cases hn : n = []
    · subst hn; exact ⟨fun _ => ⟨[], [], rfl⟩, fun _ => by simp [firstOcc]⟩
    · simp only [firstOcc, hn, if_false, Option.isSome_none,
        Bool.false_eq_true, false_iff]
      rintro ⟨s, t, ht⟩
      apply hn
      have hlen := congrArg List.length ht
      simp [List.length_append] at hlen
      exact List.length_eq_zero.mp (by omega)
  | cons c r ih =>
    simp only [firstOcc]
    by_cases hp : n.isPrefixOf (c :: r) = true
    · rw [if_pos hp]
      simp only [Option.isSome_some, true_iff]
      obtain ⟨u, hu⟩ := (prefixOf_iff n (c :: r)).mp hp
      exact ⟨[], u, by simpa using hu⟩
    · rw [if_neg hp]
      have hmap : ((firstOcc n r).map (· + 1)).isSome = (firstOcc n r).isSome := by
        cases firstOcc n r <;> rfl
      rw [hmap, ih]
      constructor
      · rintro ⟨s, t, ht⟩; exact ⟨c :: s, t, by simp [ht]⟩
      · rintro ⟨s, t, ht⟩
        cases s with
        | nil =>
          exact absurd ((prefixOf_iff n (c :: r)).mpr ⟨t, by simpa using ht⟩) hp
        | cons d s =>
          simp only [List.cons_append, List.cons.injEq] at ht
          exact ⟨s, t, ht.2⟩

theorem occurs_dropWhile (n : List Char) (hne : n ≠ [])
    (hws : ∀ c ∈ n, isPySpace c = false) :
    ∀ h : List Char, Occurs n h → Occurs n (h.dropWhile isPySpace) := by
  intro h
  induction h with
  | nil => exact fun hoc => by simpa using hoc
  | cons c r ih =>
    intro hoc
    by_cases hc : isPySpace c = true
    · rw [List.dropWhile_cons, if_pos hc]
      apply ih
      obtain ⟨s, t, ht⟩ := hoc
      cases s with
      | nil =>
        cases n with
        | nil => exact absurd rfl hne
        | cons d n' =>
          simp only [List.nil_append, List.cons_append, List.cons.injEq] at ht
          have hd : isPySpace d = false := hws d (List.mem_cons_self d n')
          rw [ht.1] at hc
          rw [hd] at hc
          exact absurd hc (by simp)
      | cons d s' =>
        simp only [List.cons_append, List.cons.injEq] at ht
        exact ⟨s', t, ht.2⟩
    · rw [List.dropWhile_cons, if_neg hc]
      exact hoc

theorem occurs_reverse (n h : List Char) (hoc : Occurs n h) :
    Occurs n.reverse h.reverse := by
  obtain ⟨s, t, ht⟩ := hoc
  exact ⟨t.reverse, s.reverse, by simp [ht]⟩

theorem sep_ne_nil : sepList ≠ [] := by decide

theorem sep_no_ws : ∀ c ∈ sepList, isPySpace c = false := by decide

theorem sep_reverse : sepList.reverse = sepList := by decide

/-- Stripping whitespace from the ends of a text cannot remove an occurrence
of the separator, whose characters are not whitespace. -/
theorem occurs_pyStrip (t : List Char) (hoc : Occurs sepList t) :
    Occurs sepList (pyStrip t) := by
  have h1 := occurs_dropWhile sepList sep_ne_nil sep_no_ws t hoc
  have h2 := occurs_reverse _ _ h1
  rw [sep_reverse] at h2
  have h3 := occurs_dropWhile sepList sep_ne_nil sep_no_ws _ h2
  have h4 := occurs_reverse _ _ h3
  rw [sep_reverse] at h4
  simpa [pyStrip] using h4

/-- When the raw text contains the separator, the split of the stripped text
succeeds. -/
theorem sepSplit_eq_some (t : List Char)
    (h : (firstOcc sepList t).isSome = true) :
    ∃ sp ap, sepSplit t = some (sp, ap) := by
  have hoc := (firstOcc_isSome_iff sepList t).mp h
  have h3 := (firstOcc_isSome_iff sepList (pyStrip t)).mpr (occurs_pyStrip t hoc)
  rw [Option.isSome_iff_exists] at h3
  obtain ⟨i, hi⟩ := h3
  exact ⟨pyStrip ((pyStrip t).take i),
    pyStrip ((pyStrip t).drop (i + sepList.length)), by simp [sepSplit, hi]⟩

/-- Every response accepted past the separator check parses to a success:
relevance from the `yes` test on the judgment part, summary from the section
extraction on the summary part. -/
theorem parseResponse_accepted (t : List Char) (h1 : ¬ t = [])
    (h2 : (firstOcc sepList t).isSome = true) :
    ∃ sp ap, sepSplit t = some (sp, ap) ∧
      parseResponse t = .success
        (if containsSub yesList (lowerL ap) then .related else .unrelated)
        (parsedSummary sp) := by
  obtain ⟨sp, ap, hsp⟩ := sepSplit_eq_some t h2
  exact ⟨sp, ap, hsp, by simp [parseResponse, h1, h2, hsp]⟩

/-- Parsing a reply always settles the call: it never leaves it pending. -/
theorem parseResponse_ne_pending (t : List Char) :
    ¬ parseResponse t = EngineResult.pending := by
  unfold parseResponse
  by_cases h1 : t = []
  · simp [h1]
  · simp only [h1, if_false]
    by_cases h2 : (firstOcc sepList t).isSome = true
    · simp only [h2, if_true]
      rcases hsp : sepSplit t with _ | ⟨sp, ap⟩ <;> simp
    · simp [h2]

/-! Helper lemmas about the fallback loop and the cursor. -/

theorem countQuota_nil : countQuota [] = 0 := rfl

theorem countQuota_cons (e : SvcEvent) (l : List SvcEvent) :
    countQuota (e :: l) =
      (if isQuotaEvent e = true then 1 else 0) + countQuota l := by
  simp only [countQuota, List.filter_cons]
  by_cases h : isQuotaEvent e = true <;> simp [h, Nat.add_comm]

/-- With the cursor at or past the roster length the loop body never runs:
no request is issued, the cursor stays, the result is the exhausted-roster
failure. -/
theorem runLoop_exhausted (roster : List String) (evs : List SvcEvent)
    (idx : Nat) (h : roster.length ≤ idx) :
    runLoop roster evs idx = ⟨.exhausted, idx, []⟩ := by
  have hn : ¬ idx < roster.length := Nat.not_lt.mpr h
  cases evs with
  | nil => simp [runLoop, hn]
  | cons e rest => simp [runLoop, hn]

/-- The final cursor is the starting cursor plus the number of quota events
among the events the loop consumed (one event per issued request). -/
theorem runLoop_finalIdx (roster : List String) :
    ∀ (evs : List SvcEvent) (idx : Nat),
      (runLoop roster evs idx).finalIdx =
        idx + countQuota (evs.take (runLoop roster evs idx).attempts.length) := by
  intro evs
  induction evs with
  | nil =>
    intro idx
    by_cases h : idx < roster.length <;> simp [runLoop, h, countQuota]
  | cons e rest ih =>
    intro idx
    by_cases h : idx < roster.length
    · cases e with
      | reply t =>
        cases t with
        | none => simp [runLoop, h, countQuota, isQuotaEvent]
        | some tt => simp [runLoop, h, countQuota, isQuotaEvent]
      | error msg =>
        rcases hek : errKind msg with _ | _ | _
        · have hq : isQuotaEvent (SvcEvent.error msg) = false := by
            simp [isQuotaEvent, hek]
          simp only [runLoop, h, if_true, hek]
          have hrec := ih idx
          simp only [List.length_cons, List.take_succ_cons, countQuota_cons, hq,
            Bool.false_eq_true, if_false]
          omega
        · have hq : isQuotaEvent (SvcEvent.error msg) = true := by
            simp [isQuotaEvent, hek]
          simp only [runLoop, h, if_true, hek]
          have hrec := ih (idx + 1)
          simp only [List.length_cons, List.take_succ_cons, countQuota_cons, hq,
            if_true]
          omega
        · simp [runLoop, h, hek, countQuota, isQuotaEvent]
    · simp [runLoop_exhausted roster _ idx (Nat.not_lt.mp h), countQuota]

/-- The cursor never moves backwards within one loop. -/
theorem runLoop_le (roster : List String) (evs : List SvcEvent) (idx : Nat) :
    idx ≤ (runLoop roster evs idx).finalIdx := by
  rw [runLoop_finalIdx]
  exact Nat.le_add_right _ _

/-- Every issued request uses a roster index between the starting and the
final cursor. -/
theorem runLoop_attempts_bound (roster : List String) :
    ∀ (evs : List SvcEvent) (idx j : Nat),
      j ∈ (runLoop roster evs idx).attempts →
      idx ≤ j ∧ j ≤ (runLoop roster evs idx).finalIdx := by
  intro evs
  induction evs with
  | nil =>
    intro idx j hj
    by_cases h : idx < roster.length <;> simp [runLoop, h] at hj
  | cons e rest ih =>
    intro idx j hj
    by_cases h : idx < roster.length
    · cases e with
      | reply t =>
        cases t with
        | none => simp [runLoop, h] at hj ⊢; omega
        | some tt => simp [runLoop, h] at hj ⊢; omega
      | error msg =>
        rcases hek : errKind msg with _ | _ | _
        · simp only [runLoop, h, if_true, hek, List.mem_cons] at hj ⊢
          rcases hj with rfl | hj
          · exact ⟨Nat.le_refl _, runLoop_le roster rest j⟩
          · exact (ih idx j hj)
        · simp only [runLoop, h, if_true, hek, List.mem_cons] at hj ⊢
          rcases hj with rfl | hj
          · exact ⟨Nat.le_refl _,
              Nat.le_trans (Nat.le_succ j) (runLoop_le roster rest (j + 1))⟩
          · have := ih (idx + 1) j hj
            exact ⟨Nat.le_trans (Nat.le_succ idx) this.1, this.2⟩
        · simp [runLoop, h, hek] at hj ⊢; omega
    · simp [runLoop_exhausted roster _ idx (Nat.not_lt.mp h)] at hj

/-- The roster indices of the requests of one loop are non-decreasing. -/
theorem runLoop_attempts_pairwise (roster : List String) :
    ∀ (evs : List SvcEvent) (idx : Nat),
      List.Pairwise (· ≤ ·) (runLoop roster evs idx).attempts := by
  intro evs
  induction evs with
  | nil =>
    intro idx
    by_cases h : idx < roster.length <;> simp [runLoop, h]
  | cons e rest ih =>
    intro idx
    by_cases h : idx < roster.length
    · cases e with
      | reply t => cases t with
        | none => simp [runLoop, h]
        | some tt => simp [runLoop, h]
      | error msg =>
        rcases hek : errKind msg with _ | _ | _
        · simp only [runLoop, h, if_true, hek, List.pairwise_cons]
          exact ⟨fun j hj => (runLoop_attempts_bound roster rest idx j hj).1,
            ih idx⟩
        · simp only [runLoop, h, if_true, hek, List.pairwise_cons]
          refine ⟨fun j hj => ?_, ih (idx + 1)⟩
          exact Nat.le_trans (Nat.le_succ idx)
            (runLoop_attempts_bound roster rest (idx + 1) j hj).1
        · simp [runLoop, h, hek]
    · simp [runLoop_exhausted roster _ idx (Nat.not_lt.mp h)]

/-- When the loop outcome is `pending`, the supplied behaviour list was
consumed whole: the call is still waiting on the service, not failed. -/
theorem runLoop_pending (roster : List String) :
    ∀ (evs : List SvcEvent) (idx : Nat),
      (runLoop roster evs idx).result = .pending →
      (runLoop roster evs idx).attempts.length = evs.length := by
  intro evs
  induction evs with
  | nil =>
    intro idx _
    by_cases h : idx < roster.length <;> simp [runLoop, h]
  | cons e rest ih =>
    intro idx hp
    by_cases h : idx < roster.length
    · cases e with
      | reply t =>
        cases t with
        | none => simp [runLoop, h] at hp
        | some tt =>
          simp only [runLoop, h, if_true] at hp
          exact absurd hp (parseResponse_ne_pending tt)
      | error msg =>
        rcases hek : errKind msg with _ | _ | _
        · simp only [runLoop, h, if_true, hek] at hp ⊢
          simp [ih idx hp]
        · simp only [runLoop, h, if_true, hek] at hp ⊢
          simp [ih (idx + 1) hp]
        · simp [runLoop, h, hek] at hp
    · rw [runLoop_exhausted roster _ idx (Nat.not_lt.mp h)] at hp
      exact absurd hp (by simp)

/-! Helper lemmas lifting the loop facts to one call and to a whole run. -/

theorem callAttempts_ok (roster : List String) (idx d : Nat)
    (evs : List SvcEvent) :
    callAttempts (analyze_paper_with_gemini roster idx (.ok d) evs) =
      (runLoop roster evs idx).attempts := by
  simp only [callAttempts, analyze_paper_with_gemini, List.map_map]
  exact List.map_id _

theorem call_finalIdx (roster : List String) (idx : Nat) (acq : AcqResult)
    (evs : List SvcEvent) :
    (analyze_paper_with_gemini roster idx acq evs).finalIdx =
      idx + countQuota (evs.take
        (analyze_paper_with_gemini roster idx acq evs).requests.length) := by
  cases acq with
  | ok d =>
    simp only [analyze_paper_with_gemini, List.length_map]
    exact runLoop_finalIdx roster evs idx
  | netError => simp [analyze_paper_with_gemini, countQuota]
  | httpStatusError => simp [analyze_paper_with_gemini, countQuota]

theorem call_le (roster : List String) (idx : Nat) (acq : AcqResult)
    (evs : List SvcEvent) :
    idx ≤ (analyze_paper_with_gemini roster idx acq evs).finalIdx := by
  rw [call_finalIdx]
  exact Nat.le_add_right _ _

theorem call_attempts_bound (roster : List String) (idx : Nat)
    (acq : AcqResult) (evs : List SvcEvent) (j : Nat)
    (hj : j ∈ callAttempts (analyze_paper_with_gemini roster idx acq evs)) :
    idx ≤ j ∧ j ≤ (analyze_paper_with_gemini roster idx acq evs).finalIdx := by
  cases acq with
  | ok d =>
    rw [callAttempts_ok] at hj
    simpa [analyze_paper_with_gemini] using
      runLoop_attempts_bound roster evs idx j hj
  | netError => simp [callAttempts, analyze_paper_with_gemini] at hj
  | httpStatusError => simp [callAttempts, analyze_paper_with_gemini] at hj

theorem call_attempts_pairwise (roster : List String) (idx : Nat)
    (acq : AcqResult) (evs : List SvcEvent) :
    List.Pairwise (· ≤ ·)
      (callAttempts (analyze_paper_with_gemini roster idx acq evs)) := by
  cases acq with
  | ok d => rw [callAttempts_ok]; exact runLoop_attempts_pairwise roster evs idx
  | netError => simp [callAttempts, analyze_paper_with_gemini]
  | httpStatusError => simp [callAttempts, analyze_paper_with_gemini]

theorem attemptSeq_nil : attemptSeq [] = [] := rfl

theorem attemptSeq_cons (o : CallOut) (outs : List CallOut) :
    attemptSeq (o :: outs) = callAttempts o ++ attemptSeq outs := by
  simp [attemptSeq]

theorem runAll_le (roster : List String) :
    ∀ (docs : List (AcqResult × List SvcEvent)) (idx : Nat),
      idx ≤ (runAll roster docs idx).2 := by
  intro docs
  induction docs with
  | nil => intro idx; simp [runAll]
  | cons doc rest ih =>
    intro idx
    obtain ⟨acq, evs⟩ := doc
    simp only [runAll]
    exact Nat.le_trans (call_le roster idx acq evs) (ih _)

theorem runAll_attempts_bound (roster : List String) :
    ∀ (docs : List (AcqResult × List SvcEvent)) (idx j : Nat),
      j ∈ attemptSeq (runAll roster docs idx).1 →
      idx ≤ j ∧ j ≤ (runAll roster docs idx).2 := by
  intro docs
  induction docs with
  | nil => intro idx j hj; simp [runAll, attemptSeq_nil] at hj
  | cons doc rest ih =>
    intro idx j hj
    obtain ⟨acq, evs⟩ := doc
    simp only [runAll, attemptSeq_cons, List.mem_append] at hj ⊢
    rcases hj with hj | hj
    · have hb := call_attempts_bound roster idx acq evs j hj
      exact ⟨hb.1, Nat.le_trans hb.2 (runAll_le roster rest _)⟩
    · have hb := ih _ j hj
      exact ⟨Nat.le_trans (call_le roster idx acq evs) hb.1, hb.2⟩

theorem runAll_attempts_pairwise (roster : List String) :
    ∀ (docs : List (AcqResult × List SvcEvent)) (idx : Nat),
      List.Pairwise (· ≤ ·) (attemptSeq (runAll roster docs idx).1) := by
  intro docs
  induction docs with
  | nil => intro idx; simp [runAll, attemptSeq_nil]
  | cons doc rest ih =>
    intro idx
    obtain ⟨acq, evs⟩ := doc
    simp only [runAll, attemptSeq_cons, List.pairwise_append]
    refine ⟨call_attempts_pairwise roster idx acq evs, ih _, ?_⟩
    intro a ha b hb
    have h1 := (call_attempts_bound roster idx acq evs a ha).2
    have h2 := (runAll_attempts_bound roster rest _ b hb).1
    exact Nat.le_trans h1 h2

/-! Claim theorems. -/

/-- C1: evaluation of the parser at the spec's own scenario.  For the
response text "[MOTIVATION]\nfoo\n[METHOD]\nbar\n|||No." the code accepts
the response with relevance Unrelated but stores "N/A" for every key -
including MOTIVATION and METHOD, whose tags are present - because the
pattern for each non-final key only matches when the immediately-following
key's tag is also present; and when [RESULTS] is present, its pattern's
trailing lazy group captures the empty string rather than the span to the
end of the text. -/
theorem C1_code_eval :
    relOf (parseResponse (chars "[MOTIVATION]\nfoo\n[METHOD]\nbar\n|||No.")) =
      some Rel.unrelated ∧
    summaryAt (parseResponse (chars "[MOTIVATION]\nfoo\n[METHOD]\nbar\n|||No."))
      Tag.motivation = some (chars "N/A") ∧
    summaryAt (parseResponse (chars "[MOTIVATION]\nfoo\n[METHOD]\nbar\n|||No."))
      Tag.method = some (chars "N/A") ∧
    ¬ summaryAt (parseResponse (chars "[MOTIVATION]\nfoo\n[METHOD]\nbar\n|||No."))
      Tag.motivation = some (chars "foo") ∧
    summaryAt (parseResponse (chars "[RESULTS] stuff|||yes")) Tag.results =
      some [] := by
  decide

/-- C2 counterexample: the judgment part "maybe" contains neither "yes" nor
"no", yet the response "x|||maybe" is not rejected: the parse is a success
with relevance Unrelated. -/
theorem C2_counterexample :
    relOf (parseResponse (chars "x|||maybe")) = some Rel.unrelated ∧
    isMalformed (parseResponse (chars "x|||maybe")) = false := by
  decide

/-- C2 (amended): for every response accepted past the separator check, the
parser lower-cases the judgment part and yields Related iff it contains the
substring "yes"; otherwise the relevance is Unrelated - including when
neither "yes" nor "no" occurs.  The judgment stage never rejects. -/
theorem C2_relevance (t sp ap : List Char) (h1 : ¬ t = [])
    (h2 : (firstOcc sepList t).isSome = true)
    (h3 : sepSplit t = some (sp, ap)) :
    parseResponse t = .success
      (if containsSub yesList (lowerL ap) then .related else .unrelated)
      (parsedSummary sp) := by
  simp [parseResponse, h1, h2, h3]

/-- C2 witness: the amended judgment rule at the concrete response
"x|||maybe". -/
theorem C2_witness :
    parseResponse (chars "x|||maybe") = .success
      (if containsSub yesList (lowerL (chars "maybe")) then .related
       else .unrelated)
      (parsedSummary (chars "x")) :=
  C2_relevance (chars "x|||maybe") (chars "x") (chars "maybe")
    (by decide) (by decide) (by decide)

/-- C3 counterexample: a response that starts with the separator - so that
the first split part is empty - is accepted with relevance Related, not
rejected as malformed. -/
theorem C3_counterexample :
    relOf (parseResponse (chars "|||yes")) = some Rel.related ∧
    isMalformed (parseResponse (chars "|||yes")) = false := by
  decide

/-- C3 (amended): the parser rejects a response as malformed exactly when
its text is empty or contains no "|||"; whenever the separator occurs the
response proceeds to a verdict, even when a split part is empty - the
number or emptiness of the parts is never checked. -/
theorem C3_reject_iff :
    (∀ t : List Char, (t = [] ∨ (firstOcc sepList t).isSome = false) →
      parseResponse t = .malformed) ∧
    (∀ t : List Char, parseResponse t = .malformed →
      t = [] ∨ (firstOcc sepList t).isSome = false) := by
  constructor
  · intro t h
    rcases h with rfl | h
    · rfl
    · by_cases h1 : t = []
      · simp [parseResponse, h1]
      · simp [parseResponse, h1, h]
  · intro t h
    by_cases h1 : t = []
    · exact Or.inl h1
    · by_cases h2 : (firstOcc sepList t).isSome = true
      · obtain ⟨sp, ap, hsp, hp⟩ := parseResponse_accepted t h1 h2
        rw [hp] at h
        exact absurd h (by simp)
      · exact Or.inr (by simpa using h2)

theorem truncVal_length_le (c : List Char) : (truncVal c).length ≤ 2000 := by
  have hm : truncMarker.length = 3 := by decide
  by_cases h : 2000 < c.length
  · simp only [truncVal, h, if_true, List.length_append, List.length_take, hm]
    omega
  · simp only [truncVal, h, if_false]
    omega

/-- C4: the truncation rule.  A recovered value longer than 2000 characters
is stored as exactly its first 1990 characters followed by the marker
"..."; a value of at most 2000 characters is stored unchanged; consequently
every stored summary value - the "N/A" placeholder included - has at most
2000 characters. -/
theorem C4_truncation (c : List Char) :
    (2000 < c.length → truncVal c = c.take 1990 ++ truncMarker) ∧
    (c.length ≤ 2000 → truncVal c = c) ∧
    (truncVal c).length ≤ 2000 ∧
    (∀ s tg, (parsedSummary s tg).length ≤ 2000) := by
  refine ⟨fun h => by simp [truncVal, h],
    fun h => by simp [truncVal, Nat.not_lt.mpr h],
    truncVal_length_le c, fun s tg => ?_⟩
  unfold parsedSummary
  rcases sectionSpan s tg with _ | sp
  · decide
  · exact truncVal_length_le _

theorem runAll_exhausted (roster : List String) :
    ∀ (docs : List (AcqResult × List SvcEvent)) (idx : Nat),
      roster.length ≤ idx →
      (runAll roster docs idx).2 = idx ∧
      ∀ o ∈ (runAll roster docs idx).1, o.requests = [] := by
  intro docs
  induction docs with
  | nil => intro idx h; simp [runAll]
  | cons doc rest ih =>
    intro idx h
    obtain ⟨acq, evs⟩ := doc
    have hcall : (analyze_paper_with_gemini roster idx acq evs).requests = [] ∧
        (analyze_paper_with_gemini roster idx acq evs).finalIdx = idx := by
      cases acq with
      | ok d =>
        simp [analyze_paper_with_gemini, runLoop_exhausted roster evs idx h]
      | netError => simp [analyze_paper_with_gemini]
      | httpStatusError => simp [analyze_paper_with_gemini]
    simp only [runAll, hcall.2]
    refine ⟨(ih idx h).1, fun o ho => ?_⟩
    simp only [List.mem_cons] at ho
    rcases ho with rfl | ho
    · exact hcall.1
    · exact (ih idx h).2 o ho

/-- C5 counterexample: with the cursor past the end of the roster, a call
whose PDF download fails returns the download failure, not the
exhausted-roster failure - the download is still attempted before the
roster check, so the call does not short-circuit to AllModelsExhausted. -/
theorem C5_counterexample :
    isAcqFailure
      (analyze_paper_with_gemini MODEL_LIST 4 .netError []).result = true ∧
    isExhausted
      (analyze_paper_with_gemini MODEL_LIST 4 .netError []).result = false ∧
    (analyze_paper_with_gemini MODEL_LIST 4 .netError []).requests = [] := by
  decide

/-- C5 (amended): once the cursor is at or past the roster length, every
call of the run issues no reasoning-service request and leaves the cursor
unchanged, and this persists for every later document; the PDF download is
still performed first, and the call returns the exhausted-roster failure
when the download succeeds, or the download failure when it does not. -/
theorem C5_exhausted_run (roster : List String) (idx : Nat) (acq : AcqResult)
    (evs : List SvcEvent) (docs : List (AcqResult × List SvcEvent))
    (h : roster.length ≤ idx) :
    (analyze_paper_with_gemini roster idx acq evs).requests = [] ∧
    (analyze_paper_with_gemini roster idx acq evs).finalIdx = idx ∧
    (analyze_paper_with_gemini roster idx acq evs).acqAttempts = 1 ∧
    (∀ d, acq = .ok d →
      (analyze_paper_with_gemini roster idx acq evs).result = .exhausted) ∧
    ((acq = .netError ∨ acq = .httpStatusError) →
      (analyze_paper_with_gemini roster idx acq evs).result = .acqFailure) ∧
    (runAll roster docs idx).2 = idx ∧
    (∀ o ∈ (runAll roster docs idx).1, o.requests = []) := by
  have hrun := runAll_exhausted roster docs idx h
  have hloop := runLoop_exhausted roster evs idx h
  cases acq with
  | ok d =>
    refine ⟨?_, ?_, rfl, fun d' hd => ?_, fun hf => ?_, hrun.1, hrun.2⟩
    · simp [analyze_paper_with_gemini, hloop]
    · simp [analyze_paper_with_gemini, hloop]
    · simp [analyze_paper_with_gemini, hloop]
    · rcases hf with hf | hf <;> exact absurd hf (by simp)
  | netError =>
    exact ⟨rfl, rfl, rfl, fun d' hd => by simp at hd, fun _ => rfl,
      hrun.1, hrun.2⟩
  | httpStatusError =>
    exact ⟨rfl, rfl, rfl, fun d' hd => by simp at hd, fun _ => rfl,
      hrun.1, hrun.2⟩

/-- C5 witness: the amended statement at a concrete exhausted-cursor call
(roster of four models, cursor 4, download succeeding). -/
theorem C5_witness :
    (analyze_paper_with_gemini MODEL_LIST 4 (.ok 7) []).requests = [] ∧
    (analyze_paper_with_gemini MODEL_LIST 4 (.ok 7) []).result = .exhausted :=
  ⟨(C5_exhausted_run MODEL_LIST 4 (.ok 7) [] [] (by decide)).1,
   (C5_exhausted_run MODEL_LIST 4 (.ok 7) [] [] (by decide)).2.2.2.1 7 rfl⟩

/-- C6: the cursor starts at 0, is moved only by quota signals and by
exactly one per signal, and is never decremented or reset: across a whole
run the final cursor is at least the starting one, the roster indices of
all issued requests form a non-decreasing sequence, and every request uses
an index at least the cursor at the start of the run - a model whose index
is below the cursor is never attempted again. -/
theorem C6_cursor_monotone :
    current_model_index = 0 ∧
    (∀ roster docs idx,
      idx ≤ (runAll roster docs idx).2 ∧
      List.Pairwise (· ≤ ·) (attemptSeq (runAll roster docs idx).1) ∧
      (∀ j ∈ attemptSeq (runAll roster docs idx).1,
        idx ≤ j ∧ j ≤ (runAll roster docs idx).2)) ∧
    (∀ roster idx acq evs,
      (analyze_paper_with_gemini roster idx acq evs).finalIdx =
        idx + countQuota (evs.take
          (analyze_paper_with_gemini roster idx acq evs).requests.length)) :=
  ⟨rfl, fun roster docs idx => ⟨runAll_le roster docs idx,
    runAll_attempts_pairwise roster docs idx,
    fun j hj => runAll_attempts_bound roster docs idx j hj⟩,
   fun roster idx acq evs => call_finalIdx roster idx acq evs⟩

/-- C7 counterexample: a call in which a quota signal precedes the
successful response ends in a well-formed Success with the cursor advanced
from 0 to 1 - so a call that ends in Success does not always leave the
cursor unchanged. -/
theorem C7_counterexample :
    isSuccess (analyze_paper_with_gemini MODEL_LIST 0 (.ok 3)
      [SvcEvent.error (chars "429 quota exceeded"),
       SvcEvent.reply (some (chars "x|||yes"))]).result = true ∧
    (analyze_paper_with_gemini MODEL_LIST 0 (.ok 3)
      [SvcEvent.error (chars "429 quota exceeded"),
       SvcEvent.reply (some (chars "x|||yes"))]).finalIdx = 1 ∧
    ¬ (analyze_paper_with_gemini MODEL_LIST 0 (.ok 3)
      [SvcEvent.error (chars "429 quota exceeded"),
       SvcEvent.reply (some (chars "x|||yes"))]).finalIdx = 0 := by
  decide

/-- C7 (amended): the success and malformed-response transitions themselves
never move the cursor: a call whose behaviour is a single reply leaves the
cursor unchanged whatever the parse outcome, and in general a call leaves
the cursor exactly where its quota signals put it, so a call with no quota
signal - in particular one settled by its first response, well-formed or
malformed - leaves the cursor unchanged. -/
theorem C7_reply_keeps_cursor :
    (∀ roster idx (t : Option (List Char)),
      (runLoop roster [SvcEvent.reply t] idx).finalIdx = idx) ∧
    (∀ roster idx acq evs,
      countQuota (evs.take
        (analyze_paper_with_gemini roster idx acq evs).requests.length) = 0 →
      (analyze_paper_with_gemini roster idx acq evs).finalIdx = idx) := by
  constructor
  · intro roster idx t
    by_cases h : idx < roster.length
    · cases t <;> simp [runLoop, h]
    · simp [runLoop, h]
  · intro roster idx acq evs h
    rw [call_finalIdx, h, Nat.add_zero]

/-- C8: an overload signal makes the loop retry the same model on the same
document: the outcome is the outcome of the remaining behaviour at the very
same cursor, with one more request at that index.  In particular, with
roster ["A"], two overload signals followed by a well-formed Success yield
that Success with the cursor unchanged and all three requests at index 0. -/
theorem C8_overload_retries :
    (∀ roster idx msg rest, idx < roster.length →
      errKind msg = ErrKind.overload →
      (runLoop roster (SvcEvent.error msg :: rest) idx).result =
        (runLoop roster rest idx).result ∧
      (runLoop roster (SvcEvent.error msg :: rest) idx).finalIdx =
        (runLoop roster rest idx).finalIdx ∧
      (runLoop roster (SvcEvent.error msg :: rest) idx).attempts =
        idx :: (runLoop roster rest idx).attempts) ∧
    (isSuccess (analyze_paper_with_gemini ["A"] 0 (.ok 7)
        [SvcEvent.error (chars "503 the model is overloaded"),
         SvcEvent.error (chars "503 the model is overloaded"),
         SvcEvent.reply (some (chars "ok|||Yes."))]).result = true ∧
     relOf (analyze_paper_with_gemini ["A"] 0 (.ok 7)
        [SvcEvent.error (chars "503 the model is overloaded"),
         SvcEvent.error (chars "503 the model is overloaded"),
         SvcEvent.reply (some (chars "ok|||Yes."))]).result =
       some Rel.related ∧
     (analyze_paper_with_gemini ["A"] 0 (.ok 7)
        [SvcEvent.error (chars "503 the model is overloaded"),
         SvcEvent.error (chars "503 the model is overloaded"),
         SvcEvent.reply (some (chars "ok|||Yes."))]).finalIdx = 0 ∧
     (analyze_paper_with_gemini ["A"] 0 (.ok 7)
        [SvcEvent.error (chars "503 the model is overloaded"),
         SvcEvent.error (chars "503 the model is overloaded"),
         SvcEvent.reply (some (chars "ok|||Yes."))]).requests =
       [(0, 7), (0, 7), (0, 7)]) := by
  constructor
  · intro roster idx msg rest h hek
    simp [runLoop, h, hek]
  · decide

/-- C9: every path of a call settles into a typed outcome and never into an
uncaught fault: a download failure (transport or HTTP status) is terminal
with no service request and a single download attempt; a service error that
is neither overload nor quota terminates the call at once, with no
fallback and nothing further consumed; and a pending outcome only reports
that the supplied service behaviour was consumed whole. -/
theorem C9_typed_failures :
    (∀ roster idx evs,
      (analyze_paper_with_gemini roster idx .netError evs).result =
        .acqFailure ∧
      (analyze_paper_with_gemini roster idx .netError evs).requests = [] ∧
      (analyze_paper_with_gemini roster idx .netError evs).acqAttempts = 1) ∧
    (∀ roster idx evs,
      (analyze_paper_with_gemini roster idx .httpStatusError evs).result =
        .acqFailure ∧
      (analyze_paper_with_gemini roster idx .httpStatusError evs).requests
        = [] ∧
      (analyze_paper_with_gemini roster idx .httpStatusError evs).acqAttempts
        = 1) ∧
    (∀ roster idx msg rest, idx < roster.length →
      errKind msg = ErrKind.other →
      runLoop roster (SvcEvent.error msg :: rest) idx =
        ⟨.serviceError, idx, [idx]⟩) ∧
    (∀ roster idx acq evs,
      (analyze_paper_with_gemini roster idx acq evs).result = .pending →
      (analyze_paper_with_gemini roster idx acq evs).requests.length =
        evs.length) := by
  refine ⟨fun roster idx evs => by simp [analyze_paper_with_gemini],
    fun roster idx evs => by simp [analyze_paper_with_gemini],
    fun roster idx msg rest h hek => by simp [runLoop, h, hek],
    fun roster idx acq evs h => ?_⟩
  cases acq with
  | ok d =>
    simp only [analyze_paper_with_gemini, List.length_map] at h ⊢
    exact runLoop_pending roster evs idx h
  | netError => simp [analyze_paper_with_gemini] at h
  | httpStatusError => simp [analyze_paper_with_gemini] at h

/-- C10: the PDF is downloaded exactly once per classification call, before
any model attempt; every request the call issues - across overload retries
and quota fallbacks alike - carries the bytes of that single download, and
when the download fails no request is issued at all. -/
theorem C10_single_download :
    (∀ roster idx acq evs,
      (analyze_paper_with_gemini roster idx acq evs).acqAttempts = 1) ∧
    (∀ roster idx d evs r,
      r ∈ (analyze_paper_with_gemini roster idx (.ok d) evs).requests →
      r.2 = d) ∧
    (∀ roster idx evs,
      (analyze_paper_with_gemini roster idx .netError evs).requests = [] ∧
      (analyze_paper_with_gemini roster idx .httpStatusError evs).requests
        = []) := by
  refine ⟨fun roster idx acq evs => ?_, fun roster idx d evs r hr => ?_,
    fun roster idx evs => by simp [analyze_paper_with_gemini]⟩
  · cases acq <;> simp [analyze_paper_with_gemini]
  · simp only [analyze_paper_with_gemini, List.mem_map] at hr
    obtain ⟨i, _, rfl⟩ := hr
    rfl

end ArxivToNotion
